import Mathlib

/-!
Verification of the grade-record store of `src/main.py` (class `DatabaseManager`),
a thin layer over one SQLite table `grades`.

Shallow embedding choices:
* The SQLite table is a `List GradeRow` kept in insertion order, together with the
  `AUTOINCREMENT` counter `next_id` and the connection's `closed` flag.
* Columns declared `NOT NULL` in `_create_table` (`student_name`, `subject`, `score`)
  are plain `String`/`ℚ`; the other data columns (`email`, `class`, `division`,
  `roll_number`), which the schema leaves nullable, are `Option String`.
* `REAL` scores are modelled as exact rationals `ℚ`.
* `ORDER BY id DESC` is modelled by `List.insertionSort` with the relation
  `fun a b => b.id ≤ a.id`.
* SQLite's `LIKE` (no `ESCAPE`, default `case_sensitive_like` off) is modelled by
  `likeMatch`: `%` matches any sequence, `_` matches exactly one character, and any
  other character matches itself up to ASCII case folding.
* The only failure modes of a statement are an underlying storage error (modelled by
  the `io_ok : Bool` parameter) and use of a closed connection; `add_grade`'s
  `try/except Exception` is the `match` in `add_grade` on the `Except` result.
-/

/-- One row of the `grades` table.  Nullable columns are `Option`-typed exactly
where `_create_table` omits `NOT NULL`. -/
structure GradeRow where
  id : Nat
  student_name : String
  email : Option String
  «class» : Option String
  division : Option String
  roll_number : Option String
  subject : String
  score : ℚ
deriving DecidableEq, Repr

/-- The caller-supplied fields of an insert (`add_grade`'s parameters); the store
assigns `id` itself. -/
structure GradeFields where
  student_name : String
  email : Option String
  «class» : Option String
  division : Option String
  roll_number : Option String
  subject : String
  score : ℚ
deriving DecidableEq, Repr

/-- State of the store: table rows in insertion order, the `AUTOINCREMENT`
counter, and whether `close()` has been called on the connection. -/
structure DBState where
  rows : List GradeRow
  next_id : Nat
  closed : Bool
deriving DecidableEq, Repr

/-- The two ways a statement can fail in this program. -/
inductive StorageFailure where
  | ioError
  | closedConnection
deriving DecidableEq, Repr

/-- Result of `DatabaseManager.__init__` / `_create_table` on a fresh database
file: empty table, `AUTOINCREMENT` starts at 1, connection open. -/
def initialStore : DBState := { rows := [], next_id := 1, closed := false }

/-- Model of `close()`: closes the connection; the persisted table is untouched. -/
def close (st : DBState) : DBState := { st with closed := true }

/-- ASCII lower-casing, the case folding SQLite's built-in `LIKE` performs
(non-ASCII characters are left alone). -/
def lowerAscii (c : Char) : Char :=
  if 'A' ≤ c ∧ c ≤ 'Z' then Char.ofNat (c.toNat + 32) else c

/-- Case folding of a whole character list. -/
def foldCase (s : List Char) : List Char := s.map lowerAscii

/-- Does `f` hold of some suffix of the list (the list itself and `[]`
included)?  This is how a `%` wildcard consumes any run of characters. -/
def anySuffix (f : List Char → Bool) : List Char → Bool
  | [] => f []
  | d :: s => f (d :: s) || anySuffix f s

/-- SQLite `LIKE` pattern matching (first argument the pattern, second the
string): `%` matches any sequence of characters, `_` exactly one character,
anything else one equal character up to ASCII case folding. -/
def likeMatch : List Char → List Char → Bool
  | [], s => s.isEmpty
  | c :: p, s =>
    if c = '%' then
      anySuffix (likeMatch p) s
    else
      match s with
      | [] => false
      | d :: s' => (if c = '_' then true else lowerAscii c == lowerAscii d) && likeMatch p s'

/-- The row an `INSERT INTO grades (student_name, email, class, division,
roll_number, subject, score)` statement appends: the next `AUTOINCREMENT` id
plus the caller-supplied fields, each stored verbatim. -/
def newRow (st : DBState) (f : GradeFields) : GradeRow :=
  { id := st.next_id, student_name := f.student_name, email := f.email,
    «class» := f.«class», division := f.division,
    roll_number := f.roll_number, subject := f.subject, score := f.score }

/-- The single `INSERT INTO grades ... VALUES (?, ?, ?, ?, ?, ?, ?)` statement
followed by `commit`: fails if the connection is closed or the underlying
storage fails (`io_ok = false`); otherwise appends the row with the next
`AUTOINCREMENT` id. -/
def executeInsert (st : DBState) (f : GradeFields) (io_ok : Bool) :
    Except StorageFailure DBState :=
  if st.closed then .error .closedConnection
  else if io_ok then
    .ok { st with rows := st.rows ++ [newRow st f], next_id := st.next_id + 1 }
  else .error .ioError

/-- Model of `add_grade`: runs the insert inside `try/except Exception`,
returning `True` on success and `False` on any error (the state is unchanged on
failure). -/
def add_grade (st : DBState) (f : GradeFields) (io_ok : Bool) : Bool × DBState :=
  match executeInsert st f io_ok with
  | .ok st' => (true, st')
  | .error _ => (false, st)

/-- The `ORDER BY id DESC` relation. -/
def byIdDesc (a b : GradeRow) : Prop := b.id ≤ a.id

instance : DecidableRel byIdDesc := fun a b => inferInstanceAs (Decidable (b.id ≤ a.id))

instance : IsTotal GradeRow byIdDesc := ⟨fun a b => (Nat.le_total a.id b.id).symm⟩

instance : IsTrans GradeRow byIdDesc := ⟨fun _ _ _ hab hbc => Nat.le_trans hbc hab⟩

/-- Model of `get_all_grades`: `SELECT id, student_name, email, class, division,
roll_number, subject, score FROM grades ORDER BY id DESC`. -/
def get_all_grades (st : DBState) : List GradeRow :=
  List.insertionSort byIdDesc st.rows

/-- Model of `get_filtered_grades`: `SELECT ... FROM grades WHERE student_name LIKE
'%' || search_term || '%' ORDER BY id DESC`. -/
def get_filtered_grades (st : DBState) (search_term : String) : List GradeRow :=
  let search_pattern := "%" ++ search_term ++ "%"
  List.insertionSort byIdDesc
    (st.rows.filter (fun r => likeMatch search_pattern.data r.student_name.data))

/-- Model of `get_average_grades_by_subject`: `SELECT subject, AVG(score) FROM grades
GROUP BY subject`.  SQLite leaves the output order of an un-`ORDER BY`ed
`GROUP BY` unspecified; the model lists groups in first-appearance order.
`subject` is `NOT NULL`, so every row contributes to exactly one group, and
`AVG` over the group is its exact sum divided by its size. -/
def get_average_grades_by_subject (st : DBState) : List (String × ℚ) :=
  ((st.rows.map GradeRow.subject).dedup).map
    (fun subj =>
      let scores := (st.rows.filter (fun r => r.subject == subj)).map GradeRow.score
      (subj, scores.sum / scores.length))

/-- Python's `x or y` for an SQL value that may be `NULL` (`None`) or a number:
`NULL` and `0` are falsy, anything else is itself. -/
def pyOr (x : Option ℚ) (y : ℚ) : ℚ :=
  match x with
  | none => y
  | some v => if v = 0 then y else v

/-- Model of `get_summary_stats`: `SELECT COUNT(id), AVG(score) FROM grades` and
`SELECT COUNT(DISTINCT student_name) FROM grades`, then
`count or 0, avg or 0.0, unique_students or 0`.  `COUNT(id)` counts every row
(`id` is never `NULL`); `AVG(score)` is `NULL` exactly when the table is empty
(`score` is `NOT NULL`); `COUNT(DISTINCT student_name)` counts distinct
non-`NULL` names, i.e. all distinct names. -/
def get_summary_stats (st : DBState) : Nat × ℚ × Nat :=
  let count := st.rows.length
  let avg : Option ℚ :=
    if st.rows.isEmpty then none
    else some ((st.rows.map GradeRow.score).sum / (st.rows.length : ℚ))
  let unique_students := ((st.rows.map GradeRow.student_name).dedup).length
  (count, pyOr avg 0, unique_students)

/-- States reachable from a fresh store by the operations in scope. -/
inductive Reachable : DBState → Prop where
  | init : Reachable initialStore
  | step (st : DBState) (f : GradeFields) (io_ok : Bool) :
      Reachable st → Reachable (add_grade st f io_ok).2
  | closeStep (st : DBState) : Reachable st → Reachable (close st)

/-- Well-formedness maintained by the store: ids strictly increase in insertion
order and stay below the `AUTOINCREMENT` counter. -/
def Wf (st : DBState) : Prop :=
  st.rows.Pairwise (fun a b => a.id < b.id) ∧ ∀ r ∈ st.rows, r.id < st.next_id

/-- Case-insensitive "needle is a leading segment of hay" test (spec side). -/
def leadEq : List Char → List Char → Bool
  | [], _ => true
  | _ :: _, [] => false
  | c :: n, d :: h => (c == d) && leadEq n h

/-- Plain contiguous-occurrence (substring) test: does `needle` occur in
`hay`?  This is the spec's "simple infix test"; it is applied to case-folded
strings. -/
def containsSeq : List Char → List Char → Bool
  | [], n => leadEq n []
  | d :: h, n => leadEq n (d :: h) || containsSeq h n

/-- A search term with no `LIKE` wildcard in it. -/
def NoWildcards (s : String) : Prop := '%' ∉ s.data ∧ '_' ∉ s.data

instance (s : String) : Decidable (NoWildcards s) :=
  inferInstanceAs (Decidable (_ ∧ _))

/-- Example fields: Alice scores 80 in Math. -/
def fAlice : GradeFields :=
  { student_name := "Alice", email := some "alice@school.example", «class» := some "5",
    division := some "A", roll_number := some "1", subject := "Math", score := 80 }

/-- Example fields: Bob scores 90 in Math. -/
def fBob : GradeFields :=
  { student_name := "Bob", email := some "bob@school.example", «class» := some "5",
    division := some "B", roll_number := some "2", subject := "Math", score := 90 }

/-- Example fields: Alice scores 70 in Art. -/
def fArt : GradeFields :=
  { student_name := "Alice", email := some "alice@school.example", «class» := some "5",
    division := some "A", roll_number := some "1", subject := "Art", score := 70 }

/-- Example fields with `NULL` class and division (and an out-of-range score),
as the schema permits. -/
def fNull : GradeFields :=
  { student_name := "Mallory", email := none, «class» := none, division := none,
    roll_number := none, subject := "Math", score := 150 }

/-- Store after inserting `fAlice` into a fresh store. -/
def stA : DBState := (add_grade initialStore fAlice true).2

/-- Store after further inserting `fBob`. -/
def stB : DBState := (add_grade stA fBob true).2

/-- Store after further inserting `fArt`: three rows, ids 1, 2, 3. -/
def stEx : DBState := (add_grade stB fArt true).2

/-- Store after inserting `fNull` into a fresh store. -/
def stNull : DBState := (add_grade initialStore fNull true).2

/-- The row produced by inserting `fAlice` into a fresh store. -/
def rowAlice : GradeRow :=
  { id := 1, student_name := "Alice", email := some "alice@school.example",
    «class» := some "5", division := some "A", roll_number := some "1",
    subject := "Math", score := 80 }

/-- The row produced by inserting `fNull` into a fresh store: its `class` and
`division` columns are `NULL`. -/
def rowNull : GradeRow :=
  { id := 1, student_name := "Mallory", email := none, «class» := none,
    division := none, roll_number := none, subject := "Math", score := 150 }

/-! ### Lemmas about `likeMatch` -/

theorem anySuffix_iff (f : List Char → Bool) : ∀ s : List Char,
    anySuffix f s = true ↔ ∃ u t, s = u ++ t ∧ f t = true
  | [] => by
      constructor
      · intro h
        exact ⟨[], [], rfl, h⟩
      · rintro ⟨u, t, hut, ht⟩
        obtain ⟨rfl, rfl⟩ := List.append_eq_nil.mp hut.symm
        exact ht
  | d :: s' => by
      rw [anySuffix]
      simp only [Bool.or_eq_true]
      constructor
      · rintro (h | h)
        · exact ⟨[], d :: s', rfl, h⟩
        · obtain ⟨u, t, rfl, ht⟩ := (anySuffix_iff f s').mp h
          exact ⟨d :: u, t, rfl, ht⟩
      · rintro ⟨u, t, hut, ht⟩
        cases u with
        | nil =>
            rw [List.nil_append] at hut
            exact Or.inl (by rw [hut]; exact ht)
        | cons e u' =>
            rw [List.cons_append] at hut
            injection hut with h1 h2
            subst h2
            exact Or.inr ((anySuffix_iff f (u' ++ t)).mpr ⟨u', t, rfl, ht⟩)

theorem likeMatch_pct (p s : List Char) :
    likeMatch ('%' :: p) s = anySuffix (likeMatch p) s := rfl

theorem likeMatch_cons (c : Char) (p s : List Char) :
    likeMatch (c :: p) s =
      (if c = '%' then anySuffix (likeMatch p) s
       else
         match s with
         | [] => false
         | d :: s' => (if c = '_' then true else lowerAscii c == lowerAscii d) && likeMatch p s') :=
  rfl

theorem likeMatch_char (c : Char) (p s : List Char) (hc : c ≠ '%') :
    likeMatch (c :: p) s =
      (match s with
       | [] => false
       | d :: s' => (if c = '_' then true else lowerAscii c == lowerAscii d) && likeMatch p s') := by
  rw [likeMatch_cons, if_neg hc]

theorem likeMatch_pct_nil (s : List Char) : likeMatch ['%'] s = true := by
  rw [likeMatch_pct]
  exact (anySuffix_iff _ s).mpr ⟨s, [], by simp, rfl⟩

theorem likeMatch_pct_iff (p : List Char) (s : List Char) :
    likeMatch ('%' :: p) s = true ↔ ∃ u t, s = u ++ t ∧ likeMatch p t = true := by
  rw [likeMatch_pct]
  exact anySuffix_iff _ s

theorem likeMatch_plain_pct : ∀ S : List Char, '%' ∉ S → '_' ∉ S → ∀ s : List Char,
    likeMatch (S ++ ['%']) s = leadEq (foldCase S) (foldCase s)
  | [], _, _, s => by
      simp [likeMatch_pct_nil, foldCase, leadEq]
  | c :: S', h1, h2, s => by
      have hc1 : c ≠ '%' := fun h => h1 (h ▸ List.mem_cons_self c S')
      have hc2 : c ≠ '_' := fun h => h2 (h ▸ List.mem_cons_self c S')
      have hS1 : '%' ∉ S' := fun h => h1 (List.mem_cons_of_mem _ h)
      have hS2 : '_' ∉ S' := fun h => h2 (List.mem_cons_of_mem _ h)
      cases s with
      | nil =>
          rw [List.cons_append, likeMatch_char _ _ _ hc1]
          simp [foldCase, leadEq]
      | cons d s' =>
          rw [List.cons_append, likeMatch_char _ _ _ hc1]
          simp only [if_neg hc2]
          rw [likeMatch_plain_pct S' hS1 hS2 s']
          simp [foldCase, leadEq]

theorem containsSeq_iff (n : List Char) : ∀ h : List Char,
    containsSeq h n = true ↔ ∃ u t, h = u ++ t ∧ leadEq n t = true
  | [] => by
      rw [containsSeq]
      constructor
      · intro hl
        exact ⟨[], [], rfl, hl⟩
      · rintro ⟨u, t, hut, ht⟩
        obtain ⟨rfl, rfl⟩ := List.append_eq_nil.mp hut.symm
        exact ht
  | d :: h' => by
      rw [containsSeq]
      simp only [Bool.or_eq_true]
      constructor
      · rintro (h | h)
        · exact ⟨[], d :: h', rfl, h⟩
        · obtain ⟨u, t, rfl, ht⟩ := (containsSeq_iff n h').mp h
          exact ⟨d :: u, t, rfl, ht⟩
      · rintro ⟨u, t, hut, ht⟩
        cases u with
        | nil =>
            rw [List.nil_append] at hut
            exact Or.inl (by rw [hut]; exact ht)
        | cons e u' =>
            rw [List.cons_append] at hut
            injection hut with h1 h2
            subst h2
            exact Or.inr ((containsSeq_iff n (u' ++ t)).mpr ⟨u', t, rfl, ht⟩)

/-- For a wildcard-free search term `S`, the pattern `'%' || S || '%'` matches a
string exactly when the case-folded term occurs contiguously in the case-folded
string. -/
theorem like_substr_of_plain (S : String) (hS : NoWildcards S) (s : List Char) :
    likeMatch ("%" ++ S ++ "%").data s = true ↔
      containsSeq (foldCase s) (foldCase S.data) = true := by
  have hdata : ("%" ++ S ++ "%").data = '%' :: (S.data ++ ['%']) := by
    simp [String.data_append]
  rw [hdata, likeMatch_pct_iff, containsSeq_iff]
  constructor
  · rintro ⟨u, t, rfl, ht⟩
    refine ⟨foldCase u, foldCase t, by simp [foldCase], ?_⟩
    rw [← likeMatch_plain_pct S.data hS.1 hS.2 t]
    exact ht
  · rintro ⟨u', t', hsplit, ht⟩
    simp only [foldCase] at hsplit
    obtain ⟨u, t, rfl, hu, htt⟩ := List.map_eq_append_iff.mp hsplit
    refine ⟨u, t, rfl, ?_⟩
    rw [likeMatch_plain_pct S.data hS.1 hS.2 t]
    simp only [foldCase]
    rw [htt]
    exact ht

/-! ### Shape of `add_grade` and store invariants -/

theorem add_grade_spec (st : DBState) (f : GradeFields) (io_ok : Bool) :
    (st.closed = false ∧ io_ok = true ∧
      add_grade st f io_ok =
        (true, { st with rows := st.rows ++ [newRow st f], next_id := st.next_id + 1 })) ∨
    (add_grade st f io_ok = (false, st) ∧ ¬(st.closed = false ∧ io_ok = true)) := by
  unfold add_grade executeInsert
  by_cases h1 : st.closed <;> by_cases h2 : io_ok <;> simp [h1, h2]

theorem wf_initialStore : Wf initialStore :=
  ⟨List.Pairwise.nil, by simp [initialStore]⟩

theorem wf_close (st : DBState) (h : Wf st) : Wf (close st) := h

theorem wf_add_grade (st : DBState) (f : GradeFields) (io_ok : Bool) (h : Wf st) :
    Wf (add_grade st f io_ok).2 := by
  rcases add_grade_spec st f io_ok with ⟨hc, hio, heq⟩ | ⟨heq, hn⟩
  · rw [heq]
    constructor
    · refine List.pairwise_append.mpr ⟨h.1, List.pairwise_singleton _ _, ?_⟩
      intro a ha b hb
      rw [List.mem_singleton] at hb
      subst hb
      exact h.2 a ha
    · intro r hr
      rw [List.mem_append, List.mem_singleton] at hr
      rcases hr with hr | rfl
      · exact Nat.lt_succ_of_lt (h.2 r hr)
      · exact Nat.lt_succ_self _
  · rw [heq]
    exact h

theorem reachable_wf {st : DBState} (h : Reachable st) : Wf st := by
  induction h with
  | init => exact wf_initialStore
  | step st f io_ok _ ih => exact wf_add_grade st f io_ok ih
  | closeStep st _ ih => exact wf_close st ih

theorem ids_nodup_of_wf (st : DBState) (h : Wf st) : (st.rows.map GradeRow.id).Nodup :=
  List.pairwise_map.mpr (h.1.imp fun hab => Nat.ne_of_lt hab)

/-! ### Sorting helpers -/

theorem mem_get_all_grades (st : DBState) (r : GradeRow) :
    r ∈ get_all_grades st ↔ r ∈ st.rows := by
  unfold get_all_grades
  exact List.mem_insertionSort byIdDesc

theorem sorted_desc_of_nodup_ids (l : List GradeRow) (h : (l.map GradeRow.id).Nodup) :
    (List.insertionSort byIdDesc l).Pairwise (fun a b => b.id < a.id) := by
  have hs : (List.insertionSort byIdDesc l).Pairwise byIdDesc :=
    List.sorted_insertionSort byIdDesc l
  have hperm : List.Perm (List.insertionSort byIdDesc l) l :=
    List.perm_insertionSort byIdDesc l
  have hnodup : ((List.insertionSort byIdDesc l).map GradeRow.id).Nodup :=
    ((hperm.map GradeRow.id).nodup_iff).mpr h
  have hne : (List.insertionSort byIdDesc l).Pairwise (fun a b => a.id ≠ b.id) :=
    List.pairwise_map.mp hnodup
  exact (hs.and hne).imp fun hab => lt_of_le_of_ne hab.1 (Ne.symm hab.2)

/-! ### Reachability of the concrete example stores -/

theorem reachable_stA : Reachable stA :=
  Reachable.step initialStore fAlice true Reachable.init

theorem reachable_stEx : Reachable stEx :=
  Reachable.step stB fArt true
    (Reachable.step stA fBob true
      (Reachable.step initialStore fAlice true Reachable.init))

/-! ### The claims -/

/-- C1: inserting a record into a (reachable) store and then calling
`get_all_grades` returns that record with all seven caller-supplied fields
verbatim, under a newly assigned id not previously present in the store. -/
theorem C1_insert_round_trip (st : DBState) (f : GradeFields) (io_ok : Bool) (st' : DBState)
    (hre : Reachable st) (hsucc : add_grade st f io_ok = (true, st')) :
    ∃ r ∈ get_all_grades st',
      r.student_name = f.student_name ∧ r.email = f.email ∧ r.«class» = f.«class» ∧
      r.division = f.division ∧ r.roll_number = f.roll_number ∧ r.subject = f.subject ∧
      r.score = f.score ∧ ∀ r0 ∈ st.rows, r0.id ≠ r.id := by
  rcases add_grade_spec st f io_ok with ⟨hc, hio, heq⟩ | ⟨heq, hn⟩
  · rw [heq] at hsucc
    have hst' : st' = { st with rows := st.rows ++ [newRow st f], next_id := st.next_id + 1 } :=
      (congrArg Prod.snd hsucc).symm
    subst hst'
    refine ⟨newRow st f, ?_, rfl, rfl, rfl, rfl, rfl, rfl, rfl, ?_⟩
    · rw [mem_get_all_grades]
      simp
    · intro r0 h0 hid
      have hlt := (reachable_wf hre).2 r0 h0
      rw [hid] at hlt
      exact absurd hlt (by simp [newRow])
  · rw [heq] at hsucc
    exact absurd hsucc (by simp)

/-- Witness for C1: a concrete insert of `fAlice` into a fresh store. -/
theorem C1_insert_round_trip_witness :
    ∃ r ∈ get_all_grades stA,
      r.student_name = fAlice.student_name ∧ r.email = fAlice.email ∧
      r.«class» = fAlice.«class» ∧ r.division = fAlice.division ∧
      r.roll_number = fAlice.roll_number ∧ r.subject = fAlice.subject ∧
      r.score = fAlice.score ∧ ∀ r0 ∈ initialStore.rows, r0.id ≠ r.id :=
  C1_insert_round_trip initialStore fAlice true stA Reachable.init rfl

/-- C2 fails as stated: the search term is spliced into a `LIKE` pattern, so
`%` and `_` act as wildcards.  Concretely, searching `"_"` returns the `Alice`
row even though `"_"` is not a substring of `"alice"` case-folded. -/
theorem C2_filter_counterexample :
    Reachable stA ∧ rowAlice ∈ stA.rows ∧
    rowAlice ∈ get_filtered_grades stA "_" ∧
    containsSeq (foldCase rowAlice.student_name.data) (foldCase "_".data) = false :=
  ⟨reachable_stA, by decide, by decide, by decide⟩

/-- C2 (amended): for search terms containing no `LIKE` wildcard (`%` or `_`),
a record appears in `get_filtered_grades` exactly when the case-folded search
term occurs as a substring (simple infix test) of the record's case-folded
`student_name`. -/
theorem C2_filter_correct (st : DBState) (S : String) (r : GradeRow)
    (hS : NoWildcards S) :
    r ∈ get_filtered_grades st S ↔
      r ∈ st.rows ∧ containsSeq (foldCase r.student_name.data) (foldCase S.data) = true := by
  unfold get_filtered_grades
  rw [List.mem_insertionSort, List.mem_filter]
  constructor
  · rintro ⟨hm, hf⟩
    exact ⟨hm, (like_substr_of_plain S hS _).mp hf⟩
  · rintro ⟨hm, hf⟩
    exact ⟨hm, (like_substr_of_plain S hS _).mpr hf⟩

/-- Witness for the amended C2 at a concrete store and wildcard-free term. -/
theorem C2_filter_correct_witness :
    NoWildcards "LIC" ∧
    (rowAlice ∈ get_filtered_grades stA "LIC" ↔
      rowAlice ∈ stA.rows ∧
        containsSeq (foldCase rowAlice.student_name.data) (foldCase "LIC".data) = true) :=
  ⟨by decide, C2_filter_correct stA "LIC" rowAlice (by decide)⟩

/-- C3: `get_average_grades_by_subject` returns exactly one pair per distinct
subject string present in the store (no pair for absent subjects, no duplicate
subjects, subjects compared by exact string equality), whose second component
is the arithmetic mean of the scores of the records with that subject; the
empty store yields the empty list. -/
theorem C3_subject_averages (st : DBState) :
    (st.rows = [] → get_average_grades_by_subject st = []) ∧
    ((get_average_grades_by_subject st).map Prod.fst).Nodup ∧
    (∀ subj : String,
      subj ∈ (get_average_grades_by_subject st).map Prod.fst ↔
        ∃ r ∈ st.rows, r.subject = subj) ∧
    (∀ p ∈ get_average_grades_by_subject st,
      (st.rows.filter (fun r => r.subject == p.1)).map GradeRow.score ≠ [] ∧
      p.2 = ((st.rows.filter (fun r => r.subject == p.1)).map GradeRow.score).sum /
          (((st.rows.filter (fun r => r.subject == p.1)).map GradeRow.score).length : ℚ)) := by
  have hfst : (get_average_grades_by_subject st).map Prod.fst =
      (st.rows.map GradeRow.subject).dedup := by
    unfold get_average_grades_by_subject
    rw [List.map_map]
    exact List.map_id _
  refine ⟨?_, ?_, ?_, ?_⟩
  · intro h
    unfold get_average_grades_by_subject
    rw [h]
    rfl
  · rw [hfst]
    exact List.nodup_dedup _
  · intro subj
    rw [hfst, List.mem_dedup, List.mem_map]
  · intro p hp
    unfold get_average_grades_by_subject at hp
    rw [List.mem_map] at hp
    obtain ⟨subj, hsub, rfl⟩ := hp
    rw [List.mem_dedup, List.mem_map] at hsub
    obtain ⟨r, hr, rfl⟩ := hsub
    constructor
    · have : r.score ∈ (st.rows.filter (fun x => x.subject == r.subject)).map GradeRow.score :=
        List.mem_map_of_mem GradeRow.score (List.mem_filter.mpr ⟨hr, by simp⟩)
      exact List.ne_nil_of_mem this
    · rfl

/-- Witness for C3 at the spec's own example: subjects Math with scores 80, 90
and Art with score 70 average to 85 and 70. -/
theorem C3_subject_averages_witness :
    get_average_grades_by_subject stEx = [("Math", 85), ("Art", 70)] ∧
    (("Math", (85 : ℚ)).2 =
      ((stEx.rows.filter (fun r => r.subject == ("Math", (85 : ℚ)).1)).map GradeRow.score).sum /
        (((stEx.rows.filter (fun r => r.subject == ("Math", (85 : ℚ)).1)).map
            GradeRow.score).length : ℚ)) := by
  have hlist : get_average_grades_by_subject stEx = [("Math", 85), ("Art", 70)] := by
    norm_num [get_average_grades_by_subject, stEx, stB, stA, initialStore, add_grade,
      executeInsert, newRow, fAlice, fBob, fArt]
    rw [show (["Math", "Art"] : List String).dedup = ["Math", "Art"] from by decide]
    simp +decide [List.filter]
    norm_num
  refine ⟨hlist, ?_⟩
  exact ((C3_subject_averages stEx).2.2.2 ("Math", 85) (by rw [hlist]; simp)).2

theorem pyOr_some_zero (v : ℚ) : pyOr (some v) 0 = v := by
  rw [pyOr]
  split <;> simp_all

/-- C4: `get_summary_stats` is total and returns the row count, the arithmetic
mean of all scores (0 for the empty store), and the number of distinct
`student_name` values; in particular a freshly initialized store yields
`(0, 0, 0)`. -/
theorem C4_summary_stats (st : DBState) :
    get_summary_stats st =
      (st.rows.length,
        (if st.rows = [] then 0
         else ((st.rows.map GradeRow.score).sum / (st.rows.length : ℚ))),
        (st.rows.map GradeRow.student_name).toFinset.card) ∧
    get_summary_stats initialStore = (0, 0, 0) := by
  refine ⟨?_, rfl⟩
  unfold get_summary_stats
  by_cases h : st.rows = []
  · simp [h, pyOr]
  · have hne : st.rows.isEmpty = false := by
      simpa [List.isEmpty_iff] using h
    simp [hne, h, pyOr_some_zero, List.card_toFinset]

/-- C5: for a reachable store, `get_all_grades` lists the records in strictly
descending id order, and so does `get_filtered_grades` for every search term. -/
theorem C5_descending_ids (st : DBState) (h : Reachable st) :
    (get_all_grades st).Pairwise (fun a b => b.id < a.id) ∧
    ∀ S : String, (get_filtered_grades st S).Pairwise (fun a b => b.id < a.id) := by
  have hnodup : (st.rows.map GradeRow.id).Nodup :=
    ids_nodup_of_wf st (reachable_wf h)
  constructor
  · exact sorted_desc_of_nodup_ids st.rows hnodup
  · intro S
    apply sorted_desc_of_nodup_ids
    exact hnodup.sublist ((List.filter_sublist st.rows).map GradeRow.id)

/-- Witness for C5 at a concrete three-insert store. -/
theorem C5_descending_ids_witness :
    (get_all_grades stEx).Pairwise (fun a b => b.id < a.id) ∧
    (get_filtered_grades stEx "Alice").Pairwise (fun a b => b.id < a.id) :=
  ⟨(C5_descending_ids stEx reachable_stEx).1,
   (C5_descending_ids stEx reachable_stEx).2 "Alice"⟩

/-- C6: `add_grade` never lets an error escape: it is a total function that
returns `True` exactly when the underlying insert statement succeeded, and
`False`, with the store unchanged, when the statement raised a
`StorageFailure`. -/
theorem C6_insert_error_handling (st : DBState) (f : GradeFields) (io_ok : Bool) :
    (∃ st', executeInsert st f io_ok = Except.ok st' ∧ add_grade st f io_ok = (true, st')) ∨
    (∃ e, executeInsert st f io_ok = Except.error e ∧ add_grade st f io_ok = (false, st)) := by
  cases h : executeInsert st f io_ok with
  | ok st' => exact Or.inl ⟨st', rfl, by simp [add_grade, h]⟩
  | error e => exact Or.inr ⟨e, rfl, by simp [add_grade, h]⟩

theorem likeMatch_pct_pct (s : List Char) : likeMatch ['%', '%'] s = true := by
  rw [likeMatch_pct]
  exact (anySuffix_iff _ s).mpr ⟨[], s, rfl, likeMatch_pct_nil s⟩

/-- C7: filtering with the empty search term returns exactly `get_all_grades`,
in the same order (the pattern becomes `%%`, which matches every name). -/
theorem C7_empty_search_is_all (st : DBState) :
    get_filtered_grades st "" = get_all_grades st := by
  show List.insertionSort byIdDesc
      (st.rows.filter (fun r => likeMatch ("%" ++ "" ++ "%").data r.student_name.data)) =
    List.insertionSort byIdDesc st.rows
  congr 1
  apply List.filter_eq_self.mpr
  intro r _
  exact likeMatch_pct_pct r.student_name.data

/-- C8 fails as stated: `_create_table` declares `class` and `division` with no
`NOT NULL` constraint, so the store accepts and persists a record whose `class`
and `division` are `NULL` — a reachable state whose single row has both null. -/
theorem C8_nullable_counterexample :
    Reachable stNull ∧ rowNull ∈ stNull.rows ∧
    rowNull.«class» = none ∧ rowNull.division = none :=
  ⟨Reachable.step initialStore fNull true Reachable.init, by decide, rfl, rfl⟩

/-- C8 (amended): in the table created by `_create_table`, only `student_name`,
`subject` and `score` are required (`NOT NULL`); `class` and `division` are
nullable, and an insert with null `class` or `division` succeeds and persists
those nulls verbatim — non-nullness of `class`/`division` is enforced only by
the caller's form validation. -/
theorem C8_class_division_nullable (st : DBState) (f : GradeFields)
    (h : st.closed = false) :
    ∃ st', add_grade st f true = (true, st') ∧
      ∃ r ∈ st'.rows, r.«class» = f.«class» ∧ r.division = f.division := by
  rcases add_grade_spec st f true with ⟨hc, hio, heq⟩ | ⟨heq, hn⟩
  · exact ⟨_, heq, newRow st f, by simp, rfl, rfl⟩
  · exact absurd ⟨h, rfl⟩ hn

/-- Witness for the amended C8: inserting `fNull` (null class and division)
into a fresh store succeeds and stores both nulls. -/
theorem C8_class_division_nullable_witness :
    initialStore.closed = false ∧
    ∃ st', add_grade initialStore fNull true = (true, st') ∧
      ∃ r ∈ st'.rows, r.«class» = fNull.«class» ∧ r.division = fNull.division :=
  ⟨rfl, C8_class_division_nullable initialStore fNull rfl⟩

/-- C9: the store does not enforce the `[0,100]` score range: for every caller-
supplied score (`f.score` ranges over all rationals), the insert succeeds on an
open connection with working storage, and the persisted row carries that score
unchanged. -/
theorem C9_no_score_range_check (st : DBState) (f : GradeFields)
    (h : st.closed = false) :
    ∃ st', add_grade st f true = (true, st') ∧
      ∃ r ∈ st'.rows, r.score = f.score := by
  rcases add_grade_spec st f true with ⟨hc, hio, heq⟩ | ⟨heq, hn⟩
  · exact ⟨_, heq, newRow st f, by simp, rfl⟩
  · exact absurd ⟨h, rfl⟩ hn

/-- Witness for C9 with the out-of-range score 150. -/
theorem C9_no_score_range_check_witness :
    initialStore.closed = false ∧ (100 : ℚ) < fNull.score ∧
    ∃ st', add_grade initialStore fNull true = (true, st') ∧
      ∃ r ∈ st'.rows, r.score = fNull.score :=
  ⟨rfl, by norm_num [fNull], C9_no_score_range_check initialStore fNull rfl⟩

/-- C10: after `close()`, an insert attempt reports failure (`False`) instead
of raising, and the persisted table is unchanged (the closed-connection error
is caught by `add_grade`'s `except` block). -/
theorem C10_insert_after_close (st : DBState) (f : GradeFields) (io_ok : Bool) :
    add_grade (close st) f io_ok = (false, close st) ∧ (close st).rows = st.rows := by
  refine ⟨?_, rfl⟩
  unfold add_grade executeInsert close
  simp
